import Mathlib

/-!
Formal model of the core of the `sol` 3D product-configurator repository:
the geometry-morph transition driver (PaperViewer / ConeMergeAnimtaion
frame ticks), the fractal-noise procedural texture synthesis, the
URL-keyed texture cache (preloadTexture / getCachedTexture /
clearTextureCache), the memoized procedural texture generator
(getProceduralTexture), and the material map-selection logic
(effectiveTextureOrNull and friends).

Numbers driving the animation are modelled as exact rationals; the
fractal noise, whose interesting content is the algebraic shape of the
octave loop, is modelled over the reals with `Real.sin` / `Real.cos`.
Texture and promise objects are modelled by numeric identity tokens:
two textures are "the identical object" exactly when their tokens agree.
-/

/-! ## Geometry morph engine (transition ticks)

`tickRoll` embeds the `useFrame` progress update of
`AnimatedPaper` (PaperViewer.tsx lines 239-250):

  const next = prev + delta * 0.8;
  if (next >= 1 && !transitionCompleteRef.current) {
    transitionCompleteRef.current = true; onTransitionComplete?.(); return 1;
  }
  return Math.min(1, next);

`tickMerge` embeds the `useFrame` progress update of `MergingScene`
(ConeMergeAnimtaion.tsx lines 124-135):

  if (isAnimating && animProgress < 1) {
    const newProgress = Math.min(1, animProgress + delta * 0.35);
    setAnimProgress(newProgress);
    if (newProgress >= 1 && !animationCompleteRef.current) {
      animationCompleteRef.current = true; ... onAnimationComplete?.(); }
  }

The one-shot completion flag is the `completed` Boolean; `fired` counts
how many times the completion callback has been invoked. The rate
(0.8 resp. 0.35 in the source) is kept as a parameter.
-/

structure TransitionSession where
  progress : ℚ
  completed : Bool
  fired : ℕ
deriving DecidableEq, Repr

def initSession : TransitionSession :=
  { progress := 0, completed := false, fired := 0 }

def tickRoll (rate : ℚ) (s : TransitionSession) (delta : ℚ) : TransitionSession :=
  if 1 ≤ s.progress + delta * rate ∧ s.completed = false then
    { progress := 1, completed := true, fired := s.fired + 1 }
  else
    { progress := min 1 (s.progress + delta * rate), completed := s.completed,
      fired := s.fired }

def tickMerge (rate : ℚ) (s : TransitionSession) (delta : ℚ) : TransitionSession :=
  if s.progress < 1 then
    if 1 ≤ min 1 (s.progress + delta * rate) ∧ s.completed = false then
      { progress := min 1 (s.progress + delta * rate), completed := true,
        fired := s.fired + 1 }
    else
      { progress := min 1 (s.progress + delta * rate), completed := s.completed,
        fired := s.fired }
  else s

def runRoll (rate : ℚ) (deltas : List ℚ) : TransitionSession :=
  deltas.foldl (tickRoll rate) initSession

def runMerge (rate : ℚ) (deltas : List ℚ) : TransitionSession :=
  deltas.foldl (tickMerge rate) initSession

/-- SessionInv rate T s: the session state reached after total elapsed
time `T` at the given rate. Progress is the clamped `min 1 (rate*T)`,
the one-shot flag is set exactly when the clamp has been hit, and the
callback has fired exactly once if and only if the clamp has been hit. -/
def SessionInv (rate T : ℚ) (s : TransitionSession) : Prop :=
  s.progress = min 1 (rate * T)
  ∧ (s.completed = true ↔ 1 ≤ rate * T)
  ∧ s.fired = if 1 ≤ rate * T then 1 else 0

/-! ## Easing curves and phase windows (ConeMergeAnimtaion.tsx) -/

def easeInOutCubic (t : ℚ) : ℚ :=
  if t < 1/2 then 4 * t * t * t else 1 - (-2 * t + 2) ^ 3 / 2

def easeOutQuart (t : ℚ) : ℚ :=
  1 - (1 - t) ^ 4

/-- Phase window `Math.min(1, animProgress * 2.5)` (line 186). -/
def phase1 (p : ℚ) : ℚ := min 1 (p * (5/2))

/-- Phase window `Math.max(0, Math.min(1, (animProgress - 0.4) * 2))` (line 187). -/
def phase2 (p : ℚ) : ℚ := max 0 (min 1 ((p - 2/5) * 2))

/-- Phase window `Math.max(0, Math.min(1, (animProgress - 0.7) * 3.33))` (line 188). -/
def phase3 (p : ℚ) : ℚ := max 0 (min 1 ((p - 7/10) * (333/100)))

def moveEase (p : ℚ) : ℚ := easeInOutCubic (phase1 p)

def rotateEase (p : ℚ) : ℚ := easeOutQuart (phase2 p)

def coneEase (p : ℚ) : ℚ := easeInOutCubic (phase3 p)

/-- clamp01 x is the spec's `clamp(x, 0, 1)`. -/
def clamp01 (x : ℚ) : ℚ := max 0 (min 1 x)

/-! ## Fractal noise (PaperViewer.tsx lines 28-42)

  let value = 0; let amplitude = 1; let frequency = scale; let maxValue = 0;
  for (let i = 0; i < octaves; i++) {
    value += Math.sin(x * frequency) * Math.cos(y * frequency) * amplitude;
    maxValue += amplitude;
    amplitude *= 0.5;
    frequency *= 2;
  }
  return (value / maxValue) * intensity;
-/

noncomputable def fractalNoiseGo (x y : ℝ) :
    ℕ → ℝ → ℝ → ℝ → ℝ → ℝ × ℝ
  | 0, value, _amplitude, _frequency, maxValue => (value, maxValue)
  | n + 1, value, amplitude, frequency, maxValue =>
      fractalNoiseGo x y n
        (value + Real.sin (x * frequency) * Real.cos (y * frequency) * amplitude)
        (amplitude * (1/2)) (frequency * 2) (maxValue + amplitude)

noncomputable def fractalNoise (x y : ℝ) (octaves : ℕ) (scale intensity : ℝ) : ℝ :=
  ((fractalNoiseGo x y octaves 0 1 scale 0).1
    / (fractalNoiseGo x y octaves 0 1 scale 0).2) * intensity

/-! ## Texture cache (src/utils/textureCache, unnamed/part_000)

Textures and promises are identity tokens (ℕ). `resolved` models
`globalTextureCache`, `inflight` models `texturePromises`, `loads`
records one entry per `loader.load` begun, `disposed` records one entry
per `tex.dispose()` call.
-/

def alookup {α : Type} [DecidableEq α] (k : α) : List (α × ℕ) → Option ℕ
  | [] => none
  | (k', v) :: t => if k' = k then some v else alookup k t

def aerase {α : Type} [DecidableEq α] (k : α) : List (α × ℕ) → List (α × ℕ)
  | [] => []
  | (k', v) :: t => if k' = k then aerase k t else (k', v) :: aerase k t

structure TexCacheState where
  resolved : List (String × ℕ)
  inflight : List (String × ℕ)
  nextPromiseId : ℕ
  loads : List String
  disposed : List ℕ
deriving DecidableEq, Repr

def initTexCacheState : TexCacheState :=
  { resolved := [], inflight := [], nextPromiseId := 0, loads := [], disposed := [] }

inductive PreloadResult where
  | resolvedNow (tex : ℕ)
  | pending (pid : ℕ)
deriving DecidableEq, Repr

/-- preloadTexture (part_000 lines 12-52): cached hit returns the cached
texture at once; an in-flight URL returns the stored pending promise;
otherwise a fresh load is begun (recorded in `loads`) and a fresh
promise is registered in `inflight`. -/
def preloadTexture (s : TexCacheState) (url : String) : PreloadResult × TexCacheState :=
  match alookup url s.resolved with
  | some tex => (PreloadResult.resolvedNow tex, s)
  | none =>
    match alookup url s.inflight with
    | some pid => (PreloadResult.pending pid, s)
    | none =>
      (PreloadResult.pending s.nextPromiseId,
        { s with inflight := (url, s.nextPromiseId) :: s.inflight,
                 nextPromiseId := s.nextPromiseId + 1,
                 loads := s.loads ++ [url] })

/-- Success callback of `loader.load` (part_000 lines 26-41):
`globalTextureCache.set(url, tex); texturePromises.delete(url)`. -/
def resolveLoad (s : TexCacheState) (url : String) (tex : ℕ) : TexCacheState :=
  { s with resolved := (url, tex) :: s.resolved,
           inflight := aerase url s.inflight }

/-- Error callback of `loader.load` (part_000 lines 43-47):
`texturePromises.delete(url); reject(err)` - the resolved cache is not
touched. -/
def failLoad (s : TexCacheState) (url : String) : TexCacheState :=
  { s with inflight := aerase url s.inflight }

/-- getCachedTexture (part_000 lines 57-62): `if (!url) return null;
return globalTextureCache.get(url) || null`. A JS-falsy url (null,
undefined, or the empty string) short-circuits to null. -/
def getCachedTexture (s : TexCacheState) (url : Option String) : Option ℕ :=
  match url with
  | none => none
  | some u => if u = "" then none else alookup u s.resolved

/-- clearTextureCache (part_000 lines 67-71): dispose every cached
texture, then clear both maps. -/
def clearTextureCache (s : TexCacheState) : TexCacheState :=
  { s with resolved := [],
           inflight := [],
           disposed := s.disposed ++ s.resolved.map Prod.snd }

/-! ## Procedural texture generator (PaperViewer.tsx lines 128-140)

The generated `THREE.DataTexture` buffers are identity tokens allocated
from `nextId`; `gens` records one entry per run of
`generatePaperTexture` (the O(size^2) synthesis). -/

inductive PaperType where
  | unbleached | hemp | bleached | colored | rice | bamboo
deriving DecidableEq, Repr

structure ProcState where
  cache : List (PaperType × ℕ)
  nextId : ℕ
  gens : List PaperType
deriving DecidableEq, Repr

def initProcState : ProcState := { cache := [], nextId := 0, gens := [] }

/-- getProceduralTexture (PaperViewer.tsx lines 131-140):

  const effectiveType = paperType ?? "hemp";
  if (!proceduralTextureCache.has(effectiveType)) {
    const texture = generatePaperTexture(effectiveType);
    proceduralTextureCache.set(effectiveType, texture);
  }
  return proceduralTextureCache.get(effectiveType) ?? null;
-/
def getProceduralTexture (s : ProcState) (paperType : Option PaperType) :
    Option ℕ × ProcState :=
  let effectiveType := paperType.getD PaperType.hemp
  let s' :=
    if (alookup effectiveType s.cache).isSome then s
    else { cache := (effectiveType, s.nextId) :: s.cache,
           nextId := s.nextId + 1,
           gens := s.gens ++ [effectiveType] }
  (alookup effectiveType s'.cache, s')

def runProc (s : ProcState) (calls : List (Option PaperType)) : ProcState :=
  calls.foldl (fun st c => (getProceduralTexture st c).2) s

def pcount (k : PaperType) : List PaperType → ℕ
  | [] => 0
  | a :: t => (if a = k then 1 else 0) + pcount k t

/-- ProcInv s: reachable memoization states have run the synthesis for a
kind exactly once when the kind is cached, never otherwise. -/
def ProcInv (s : ProcState) : Prop :=
  ∀ k, pcount k s.gens = if (alookup k s.cache).isSome then 1 else 0

/-! ## Material map selection (PaperViewer.tsx / ConeViewer in part_002)

`customTexture` stands for the value `useOptionalTexture(paperTextureUrl)`
has produced (the loaded texture once the async load resolved, else null). -/

/-- JS truthiness of a `string | null | undefined` value: null, undefined
and the empty string are falsy. -/
def jsTruthyStr (o : Option String) : Bool :=
  match o with
  | none => false
  | some s => if s = "" then false else true

/-- JS nullish coalescing `a ?? b` on texture handles. -/
def jsNullish (a b : Option ℕ) : Option ℕ :=
  match a with
  | some x => some x
  | none => b

structure PaperMaterialInputs where
  paperType : Option PaperType
  paperColorHex : Option String
  paperTextureUrl : Option String
  customTexture : Option ℕ
deriving DecidableEq, Repr

/-- Procedural texture memo of AnimatedPaper (PaperViewer.tsx 193-198) and
ConeMesh (part_002 lines 181-186): `if (!paperTextureUrl) return
getProceduralTexture(paperType); return null`. -/
def proceduralTextureIfNoUrl (procState : ProcState) (paperType : Option PaperType)
    (paperTextureUrl : Option String) : Option ℕ :=
  if jsTruthyStr paperTextureUrl then none
  else (getProceduralTexture procState paperType).1

/-- effectiveTexture (PaperViewer.tsx line 200):
`customTexture ?? proceduralTexture`. -/
def effectiveTextureOf (procState : ProcState) (inp : PaperMaterialInputs) : Option ℕ :=
  jsNullish inp.customTexture
    (proceduralTextureIfNoUrl procState inp.paperType inp.paperTextureUrl)

/-- Map applied to the flat-paper mesh material (PaperViewer.tsx line 322):
`map={effectiveTexture}`. -/
def flatPaperMap (procState : ProcState) (inp : PaperMaterialInputs) : Option ℕ :=
  effectiveTextureOf procState inp

/-- effectiveTextureOrNull (PaperViewer.tsx line 207):
`paperColorHex ? null : effectiveTexture`. -/
def effectiveTextureOrNull (procState : ProcState) (inp : PaperMaterialInputs) : Option ℕ :=
  if jsTruthyStr inp.paperColorHex then none else effectiveTextureOf procState inp

/-- Map applied to the rolled-paper mesh material (PaperViewer.tsx line 307):
`map={effectiveTextureOrNull}`. -/
def rolledPaperMap (procState : ProcState) (inp : PaperMaterialInputs) : Option ℕ :=
  effectiveTextureOrNull procState inp

/-- Map applied to the cone paper material (part_002 lines 233-245, 290):
`paperSource = baseSharedTexture ?? basePaperTexture ?? proceduralPaperTexture`,
then a clone of the source is used as the map (present iff the source is). -/
def conePaperMap (procState : ProcState) (inp : PaperMaterialInputs)
    (baseSharedTexture : Option ℕ) : Option ℕ :=
  jsNullish baseSharedTexture
    (jsNullish inp.customTexture
      (proceduralTextureIfNoUrl procState inp.paperType inp.paperTextureUrl))

/-! # Theorems -/

/-! ## Morph engine: session invariant lemmas -/

theorem sessionInv_init (rate : ℚ) : SessionInv rate 0 initSession := by
  norm_num [SessionInv, initSession]

theorem tickRoll_inv (rate : ℚ) (hr : 0 ≤ rate) (T d : ℚ) (hd : 0 ≤ d)
    (s : TransitionSession) (h : SessionInv rate T s) :
    SessionInv rate (T + d) (tickRoll rate s d) := by
  obtain ⟨hp, hc, hf⟩ := h
  have hdr : 0 ≤ d * rate := mul_nonneg hd hr
  have hTd : rate * T ≤ rate * (T + d) := by nlinarith
  by_cases h1 : 1 ≤ rate * T
  · have hcT : s.completed = true := hc.mpr h1
    have h1' : 1 ≤ rate * (T + d) := le_trans h1 hTd
    have hp1 : s.progress = 1 := by rw [hp]; exact min_eq_left h1
    have hcond : ¬(1 ≤ s.progress + d * rate ∧ s.completed = false) := by
      rintro ⟨-, hfalse⟩
      rw [hcT] at hfalse
      exact Bool.noConfusion hfalse
    unfold tickRoll
    rw [if_neg hcond]
    refine ⟨?_, ?_, ?_⟩
    · show min 1 (s.progress + d * rate) = min 1 (rate * (T + d))
      rw [hp1, min_eq_left (by linarith : (1:ℚ) ≤ 1 + d * rate),
        min_eq_left h1']
    · show s.completed = true ↔ 1 ≤ rate * (T + d)
      simp [hcT, h1']
    · show s.fired = if 1 ≤ rate * (T + d) then 1 else 0
      rw [hf, if_pos h1, if_pos h1']
  · have hcF : s.completed = false := by
      cases hcc : s.completed
      · rfl
      · exact absurd (hc.mp hcc) h1
    have hpv : s.progress = rate * T := by
      rw [hp]; exact min_eq_right (le_of_not_le h1)
    have hnext : s.progress + d * rate = rate * (T + d) := by rw [hpv]; ring
    by_cases h2 : 1 ≤ rate * (T + d)
    · have hcond : 1 ≤ s.progress + d * rate ∧ s.completed = false :=
        ⟨by rw [hnext]; exact h2, hcF⟩
      unfold tickRoll
      rw [if_pos hcond]
      refine ⟨?_, ?_, ?_⟩
      · show (1:ℚ) = min 1 (rate * (T + d))
        rw [min_eq_left h2]
      · simp [h2]
      · show s.fired + 1 = if 1 ≤ rate * (T + d) then 1 else 0
        rw [hf, if_neg h1, if_pos h2]
    · have hcond : ¬(1 ≤ s.progress + d * rate ∧ s.completed = false) := by
        rintro ⟨hge, -⟩
        rw [hnext] at hge
        exact h2 hge
      unfold tickRoll
      rw [if_neg hcond]
      refine ⟨?_, ?_, ?_⟩
      · show min 1 (s.progress + d * rate) = min 1 (rate * (T + d))
        rw [hnext]
      · show s.completed = true ↔ 1 ≤ rate * (T + d)
        simp [hcF, h2]
      · show s.fired = if 1 ≤ rate * (T + d) then 1 else 0
        rw [hf, if_neg h1, if_neg h2]

theorem tickMerge_inv (rate : ℚ) (hr : 0 ≤ rate) (T d : ℚ) (hd : 0 ≤ d)
    (s : TransitionSession) (h : SessionInv rate T s) :
    SessionInv rate (T + d) (tickMerge rate s d) := by
  obtain ⟨hp, hc, hf⟩ := h
  have hdr : 0 ≤ d * rate := mul_nonneg hd hr
  have hTd : rate * T ≤ rate * (T + d) := by nlinarith
  by_cases h1 : 1 ≤ rate * T
  · have hcT : s.completed = true := hc.mpr h1
    have h1' : 1 ≤ rate * (T + d) := le_trans h1 hTd
    have hp1 : s.progress = 1 := by rw [hp]; exact min_eq_left h1
    have hguard : ¬(s.progress < 1) := by rw [hp1]; exact lt_irrefl 1
    unfold tickMerge
    rw [if_neg hguard]
    refine ⟨?_, ?_, ?_⟩
    · rw [hp1, min_eq_left h1']
    · simp [hcT, h1']
    · rw [hf, if_pos h1, if_pos h1']
  · have hcF : s.completed = false := by
      cases hcc : s.completed
      · rfl
      · exact absurd (hc.mp hcc) h1
    have hpv : s.progress = rate * T := by
      rw [hp]; exact min_eq_right (le_of_not_le h1)
    have hguard : s.progress < 1 := by rw [hpv]; exact lt_of_not_le h1
    have hnext : s.progress + d * rate = rate * (T + d) := by rw [hpv]; ring
    by_cases h2 : 1 ≤ rate * (T + d)
    · have hcond : 1 ≤ min 1 (s.progress + d * rate) ∧ s.completed = false :=
        ⟨by rw [hnext]; exact le_min le_rfl h2, hcF⟩
      unfold tickMerge
      rw [if_pos hguard, if_pos hcond]
      refine ⟨?_, ?_, ?_⟩
      · show min 1 (s.progress + d * rate) = min 1 (rate * (T + d))
        rw [hnext]
      · simp [h2]
      · show s.fired + 1 = if 1 ≤ rate * (T + d) then 1 else 0
        rw [hf, if_neg h1, if_pos h2]
    · have hcond : ¬(1 ≤ min 1 (s.progress + d * rate) ∧ s.completed = false) := by
        rintro ⟨hge, -⟩
        rw [hnext] at hge
        exact h2 (le_trans hge (min_le_right 1 _))
      unfold tickMerge
      rw [if_pos hguard, if_neg hcond]
      refine ⟨?_, ?_, ?_⟩
      · show min 1 (s.progress + d * rate) = min 1 (rate * (T + d))
        rw [hnext]
      · simp [hcF, h2]
      · rw [hf, if_neg h1, if_neg h2]

theorem foldl_inv_roll (rate : ℚ) (hr : 0 ≤ rate) :
    ∀ (ds : List ℚ), (∀ d ∈ ds, 0 ≤ d) → ∀ T s, SessionInv rate T s →
      SessionInv rate (T + ds.sum) (ds.foldl (tickRoll rate) s) := by
  intro ds
  induction ds with
  | nil => intro _ T s h; simpa using h
  | cons d t ih =>
      intro hmem T s h
      have hd : 0 ≤ d := hmem d (List.mem_cons_self d t)
      have step := tickRoll_inv rate hr T d hd s h
      have rest := ih (fun x hx => hmem x (List.mem_cons_of_mem d hx))
        (T + d) (tickRoll rate s d) step
      simpa [List.sum_cons, add_assoc] using rest

theorem foldl_inv_merge (rate : ℚ) (hr : 0 ≤ rate) :
    ∀ (ds : List ℚ), (∀ d ∈ ds, 0 ≤ d) → ∀ T s, SessionInv rate T s →
      SessionInv rate (T + ds.sum) (ds.foldl (tickMerge rate) s) := by
  intro ds
  induction ds with
  | nil => intro _ T s h; simpa using h
  | cons d t ih =>
      intro hmem T s h
      have hd : 0 ≤ d := hmem d (List.mem_cons_self d t)
      have step := tickMerge_inv rate hr T d hd s h
      have rest := ih (fun x hx => hmem x (List.mem_cons_of_mem d hx))
        (T + d) (tickMerge rate s d) step
      simpa [List.sum_cons, add_assoc] using rest

/-- C1: for any rate `r ≥ 0` and any sequence of nonnegative frame deltas
each at most 1, progress after the run is `min 1 (r * totalTime)` and the
completion callback has fired exactly once if and only if the clamp was
hit; since this holds for every delta list, it holds at every prefix, so
the callback fires at the first tick reaching 1.0 and never before or
twice. The last two conjuncts check the huge single tick
(deltaTime = 100) at the source rates 0.8 and 0.35: progress is exactly
1.0 and the callback fired exactly once. -/
theorem transition_tick_progress (rate : ℚ) (deltas : List ℚ) (hr : 0 ≤ rate)
    (hd : ∀ d ∈ deltas, 0 ≤ d ∧ d ≤ 1) :
    ((runRoll rate deltas).progress = min 1 (rate * deltas.sum)
      ∧ (runRoll rate deltas).fired = (if 1 ≤ rate * deltas.sum then 1 else 0))
    ∧ ((runMerge rate deltas).progress = min 1 (rate * deltas.sum)
      ∧ (runMerge rate deltas).fired = (if 1 ≤ rate * deltas.sum then 1 else 0))
    ∧ tickRoll (4/5) initSession 100
        = { progress := 1, completed := true, fired := 1 }
    ∧ tickMerge (7/20) initSession 100
        = { progress := 1, completed := true, fired := 1 } := by
  have hd' : ∀ d ∈ deltas, 0 ≤ d := fun d h => (hd d h).1
  have hroll := foldl_inv_roll rate hr deltas hd' 0 initSession (sessionInv_init rate)
  have hmerge := foldl_inv_merge rate hr deltas hd' 0 initSession (sessionInv_init rate)
  rw [zero_add] at hroll hmerge
  obtain ⟨hrp, -, hrf⟩ := hroll
  obtain ⟨hmp, -, hmf⟩ := hmerge
  refine ⟨⟨hrp, hrf⟩, ⟨hmp, hmf⟩, ?_, ?_⟩
  · norm_num [tickRoll, initSession]
  · norm_num [tickMerge, initSession, min_def]

/-- Witness for C1 at rate 0.8 with deltas [1, 1/2] (total time 1.5, so
the clamp is hit and the callback fired exactly once). -/
theorem transition_tick_progress_witness :
    (0 ≤ (4/5 : ℚ))
    ∧ (((runRoll (4/5) [1, 1/2]).progress = min 1 ((4/5) * List.sum [(1:ℚ), 1/2])
      ∧ (runRoll (4/5) [1, 1/2]).fired
          = (if 1 ≤ (4/5 : ℚ) * List.sum [(1:ℚ), 1/2] then 1 else 0))
    ∧ ((runMerge (4/5) [1, 1/2]).progress = min 1 ((4/5) * List.sum [(1:ℚ), 1/2])
      ∧ (runMerge (4/5) [1, 1/2]).fired
          = (if 1 ≤ (4/5 : ℚ) * List.sum [(1:ℚ), 1/2] then 1 else 0))
    ∧ tickRoll (4/5) initSession 100
        = { progress := 1, completed := true, fired := 1 }
    ∧ tickMerge (7/20) initSession 100
        = { progress := 1, completed := true, fired := 1 }) :=
  ⟨by norm_num,
    transition_tick_progress (4/5) [1, 1/2] (by norm_num)
      (by rintro d hd; simp only [List.mem_cons, List.not_mem_nil, or_false] at hd
          rcases hd with rfl | rfl <;> norm_num)⟩

/-! ## Merge animation phase windows (C6) -/

/-- C6: each sub-phase of the merge animation equals the master progress
re-normalized to its own window by `clamp((p - windowStart) * windowScale, 0, 1)`
(move-together: start 0 scale 2.5; rotate-to-vertical: start 0.4 scale 2;
form-cone: start 0.7 scale 3.33), and each eased value is the
corresponding easing function (cubic ease-in-out resp. quartic ease-out,
whose formulas are restated in the last two conjuncts) applied to that
re-normalized window. -/
theorem merge_phases_renormalized (p : ℚ) (hp : 0 ≤ p) :
    phase1 p = clamp01 ((p - 0) * (5/2))
    ∧ phase2 p = clamp01 ((p - 2/5) * 2)
    ∧ phase3 p = clamp01 ((p - 7/10) * (333/100))
    ∧ moveEase p = easeInOutCubic (clamp01 ((p - 0) * (5/2)))
    ∧ rotateEase p = easeOutQuart (clamp01 ((p - 2/5) * 2))
    ∧ coneEase p = easeInOutCubic (clamp01 ((p - 7/10) * (333/100)))
    ∧ easeInOutCubic p = (if p < 1/2 then 4 * p ^ 3 else 1 - (-2 * p + 2) ^ 3 / 2)
    ∧ easeOutQuart p = 1 - (1 - p) ^ 4 := by
  have h1 : phase1 p = clamp01 ((p - 0) * (5/2)) := by
    unfold phase1 clamp01
    rw [sub_zero]
    exact (max_eq_right (le_min (by norm_num) (mul_nonneg hp (by norm_num)))).symm
  refine ⟨h1, rfl, rfl, ?_, rfl, rfl, ?_, rfl⟩
  · unfold moveEase
    rw [h1]
  · unfold easeInOutCubic
    by_cases h : p < 1/2
    · rw [if_pos h, if_pos h]
      ring
    · rw [if_neg h, if_neg h]

/-- Witness for C6 at master progress 1/2. -/
theorem merge_phases_renormalized_witness :
    (0 ≤ (1/2 : ℚ))
    ∧ (phase1 (1/2) = clamp01 (((1:ℚ)/2 - 0) * (5/2))
    ∧ phase2 (1/2) = clamp01 (((1:ℚ)/2 - 2/5) * 2)
    ∧ phase3 (1/2) = clamp01 (((1:ℚ)/2 - 7/10) * (333/100))
    ∧ moveEase (1/2) = easeInOutCubic (clamp01 (((1:ℚ)/2 - 0) * (5/2)))
    ∧ rotateEase (1/2) = easeOutQuart (clamp01 (((1:ℚ)/2 - 2/5) * 2))
    ∧ coneEase (1/2) = easeInOutCubic (clamp01 (((1:ℚ)/2 - 7/10) * (333/100)))
    ∧ easeInOutCubic (1/2)
        = (if (1:ℚ)/2 < 1/2 then 4 * ((1:ℚ)/2) ^ 3 else 1 - (-2 * ((1:ℚ)/2) + 2) ^ 3 / 2)
    ∧ easeOutQuart (1/2) = 1 - (1 - (1:ℚ)/2) ^ 4) :=
  ⟨by norm_num, merge_phases_renormalized (1/2) (by norm_num)⟩

/-! ## Fractal noise closed form (C4) -/

theorem fractalNoiseGo_spec (x y : ℝ) :
    ∀ (n : ℕ) (value amplitude frequency maxValue : ℝ),
      fractalNoiseGo x y n value amplitude frequency maxValue
        = (value + ∑ k in Finset.range n,
              Real.sin (x * (frequency * 2 ^ k)) * Real.cos (y * (frequency * 2 ^ k))
                * (amplitude * (1/2) ^ k),
           maxValue + ∑ k in Finset.range n, amplitude * (1/2) ^ k) := by
  intro n
  induction n with
  | zero =>
      intro value amplitude frequency maxValue
      simp [fractalNoiseGo]
  | succ n ih =>
      intro value amplitude frequency maxValue
      rw [fractalNoiseGo, ih, Prod.mk.injEq]
      constructor
      · have hcong : (∑ k in Finset.range n,
            Real.sin (x * (frequency * 2 ^ (k + 1))) * Real.cos (y * (frequency * 2 ^ (k + 1)))
              * (amplitude * (1/2) ^ (k + 1)))
            = ∑ k in Finset.range n,
            Real.sin (x * (frequency * 2 * 2 ^ k)) * Real.cos (y * (frequency * 2 * 2 ^ k))
              * (amplitude * (1/2) * (1/2) ^ k) := by
          refine Finset.sum_congr rfl (fun k _ => ?_)
          rw [(by ring : x * (frequency * 2 ^ (k + 1)) = x * (frequency * 2 * 2 ^ k)),
             (by ring : y * (frequency * 2 ^ (k + 1)) = y * (frequency * 2 * 2 ^ k))]
          ring
        rw [Finset.sum_range_succ', hcong,
           (by norm_num : x * (frequency * 2 ^ 0) = x * frequency),
           (by norm_num : y * (frequency * 2 ^ 0) = y * frequency)]
        ring
      · have hcong : (∑ k in Finset.range n, amplitude * (1/2) ^ (k + 1))
            = ∑ k in Finset.range n, amplitude * (1/2) * (1/2) ^ k := by
          refine Finset.sum_congr rfl (fun k _ => ?_)
          ring
        rw [Finset.sum_range_succ', hcong]
        ring

/-- C4: for octave count `n ≥ 1`, fractalNoise x y n scale intensity equals
the claim's closed form: the amplitude-weighted octave sum
(a_k = 0.5^k, f_k = scale*2^k) divided by the amplitude sum, scaled by
intensity. -/
theorem fractalNoise_closed_form (x y : ℝ) (octaves : ℕ) (scale intensity : ℝ)
    (_h : 1 ≤ octaves) :
    fractalNoise x y octaves scale intensity
      = (∑ k in Finset.range octaves,
           Real.sin (x * (scale * 2 ^ k)) * Real.cos (y * (scale * 2 ^ k))
             * ((1:ℝ)/2) ^ k)
        / (∑ k in Finset.range octaves, ((1:ℝ)/2) ^ k) * intensity := by
  unfold fractalNoise
  rw [fractalNoiseGo_spec]
  simp only [zero_add, one_mul]

/-- Witness for C4 at x = y = 0, one octave: the closed form evaluates to 0. -/
theorem fractalNoise_closed_form_witness :
    1 ≤ 1 ∧ fractalNoise 0 0 1 1 1 = 0 := by
  refine ⟨le_refl 1, ?_⟩
  rw [fractalNoise_closed_form 0 0 1 1 1 (le_refl 1)]
  simp

/-! ## Texture cache lemmas -/

theorem alookup_cons_self {α : Type} [DecidableEq α] (k : α) (v : ℕ)
    (l : List (α × ℕ)) : alookup k ((k, v) :: l) = some v := by
  simp [alookup]

theorem alookup_aerase {α : Type} [DecidableEq α] (k : α) (l : List (α × ℕ)) :
    alookup k (aerase k l) = none := by
  induction l with
  | nil => rfl
  | cons e t ih =>
      obtain ⟨k', v⟩ := e
      by_cases h : k' = k
      · simp [aerase, h, ih]
      · simp [aerase, alookup, h, ih]

/-- C2: from a state where `url` is neither resolved nor in flight,
`preloadTexture` starts exactly one load and returns a pending promise;
a second call before resolution returns the very same pending promise
and leaves the state untouched (no second load); and from a state where
`url` has resolved, `preloadTexture` returns the cached texture at once
with no state change. -/
theorem preload_single_flight (s : TexCacheState) (url : String) (tex : ℕ)
    (hres : alookup url s.resolved = none)
    (hinf : alookup url s.inflight = none) :
    (preloadTexture s url).1 = PreloadResult.pending s.nextPromiseId
    ∧ (preloadTexture s url).2.loads = s.loads ++ [url]
    ∧ preloadTexture (preloadTexture s url).2 url = preloadTexture s url
    ∧ preloadTexture (resolveLoad s url tex) url
        = (PreloadResult.resolvedNow tex, resolveLoad s url tex) := by
  have h1 : preloadTexture s url
      = (PreloadResult.pending s.nextPromiseId,
         { s with inflight := (url, s.nextPromiseId) :: s.inflight,
                  nextPromiseId := s.nextPromiseId + 1,
                  loads := s.loads ++ [url] }) := by
    unfold preloadTexture
    rw [hres, hinf]
  refine ⟨by rw [h1], by rw [h1], ?_, ?_⟩
  · rw [h1]
    unfold preloadTexture
    rw [hres, alookup_cons_self]
  · have hres2 : alookup url (resolveLoad s url tex).resolved = some tex :=
      alookup_cons_self url tex s.resolved
    unfold preloadTexture
    rw [hres2]

/-- Witness for C2 from the empty start state on url img1.png. -/
theorem preload_single_flight_witness :
    alookup "img1.png" initTexCacheState.resolved = none
    ∧ alookup "img1.png" initTexCacheState.inflight = none
    ∧ ((preloadTexture initTexCacheState "img1.png").1
        = PreloadResult.pending initTexCacheState.nextPromiseId
    ∧ (preloadTexture initTexCacheState "img1.png").2.loads
        = initTexCacheState.loads ++ ["img1.png"]
    ∧ preloadTexture (preloadTexture initTexCacheState "img1.png").2 "img1.png"
        = preloadTexture initTexCacheState "img1.png"
    ∧ preloadTexture (resolveLoad initTexCacheState "img1.png" 5) "img1.png"
        = (PreloadResult.resolvedNow 5, resolveLoad initTexCacheState "img1.png" 5)) :=
  ⟨rfl, rfl, preload_single_flight initTexCacheState "img1.png" 5 rfl rfl⟩

/-- C7: when a load fails, the in-flight entry for the URL is removed,
the resolved cache is left unchanged (no entry is stored for the failed
URL), and a later preloadTexture for the same URL begins a fresh load
(a new pending promise, one new entry in the load log). -/
theorem load_failure_isolated (s : TexCacheState) (url : String)
    (hres : alookup url s.resolved = none) :
    (failLoad s url).resolved = s.resolved
    ∧ alookup url (failLoad s url).inflight = none
    ∧ (preloadTexture (failLoad s url) url).1
        = PreloadResult.pending (failLoad s url).nextPromiseId
    ∧ (preloadTexture (failLoad s url) url).2.loads
        = (failLoad s url).loads ++ [url] := by
  have hres' : alookup url (failLoad s url).resolved = none := hres
  have hinf' : alookup url (failLoad s url).inflight = none :=
    alookup_aerase url s.inflight
  have h1 : preloadTexture (failLoad s url) url
      = (PreloadResult.pending (failLoad s url).nextPromiseId,
         { failLoad s url with
             inflight := (url, (failLoad s url).nextPromiseId) :: (failLoad s url).inflight,
             nextPromiseId := (failLoad s url).nextPromiseId + 1,
             loads := (failLoad s url).loads ++ [url] }) := by
    unfold preloadTexture
    rw [hres', hinf']
  exact ⟨rfl, hinf', by rw [h1], by rw [h1]⟩

/-- Witness for C7 at the empty cache state and url img1.png. -/
theorem load_failure_isolated_witness :
    alookup "img1.png" initTexCacheState.resolved = none
    ∧ ((failLoad initTexCacheState "img1.png").resolved = initTexCacheState.resolved
    ∧ alookup "img1.png" (failLoad initTexCacheState "img1.png").inflight = none
    ∧ (preloadTexture (failLoad initTexCacheState "img1.png") "img1.png").1
        = PreloadResult.pending (failLoad initTexCacheState "img1.png").nextPromiseId
    ∧ (preloadTexture (failLoad initTexCacheState "img1.png") "img1.png").2.loads
        = (failLoad initTexCacheState "img1.png").loads ++ ["img1.png"]) :=
  ⟨rfl, load_failure_isolated initTexCacheState "img1.png" rfl⟩

/-- C8: clearTextureCache empties both the resolved cache and the
in-flight map and disposes exactly the cached resources; a second clear
in a row is a no-op (the state is unchanged, so nothing is disposed
twice). -/
theorem clear_texture_cache_idempotent (s : TexCacheState) :
    (clearTextureCache s).resolved = []
    ∧ (clearTextureCache s).inflight = []
    ∧ (clearTextureCache s).disposed = s.disposed ++ s.resolved.map Prod.snd
    ∧ clearTextureCache (clearTextureCache s) = clearTextureCache s := by
  refine ⟨rfl, rfl, rfl, ?_⟩
  unfold clearTextureCache
  simp

/-- C10: getCachedTexture is total on nullable input: a null/undefined
URL yields null, and any string URL absent from the resolved cache
yields null; the cache state is never modified (getCachedTexture does
not return a state at all, being a pure read). -/
theorem get_cached_texture_total (s : TexCacheState) (u : String)
    (h : alookup u s.resolved = none) :
    getCachedTexture s none = none ∧ getCachedTexture s (some u) = none := by
  refine ⟨rfl, ?_⟩
  show (if u = "" then none else alookup u s.resolved) = none
  by_cases hu : u = ""
  · rw [if_pos hu]
  · rw [if_neg hu]
    exact h

/-- Witness for C10 at the empty cache and url img1.png. -/
theorem get_cached_texture_total_witness :
    alookup "img1.png" initTexCacheState.resolved = none
    ∧ (getCachedTexture initTexCacheState none = none
       ∧ getCachedTexture initTexCacheState (some "img1.png") = none) :=
  ⟨rfl, get_cached_texture_total initTexCacheState "img1.png" rfl⟩

/-! ## Procedural texture memoization (C5, C9) -/

theorem getProc_second_call (s : ProcState) (k k' : Option PaperType)
    (h : k.getD PaperType.hemp = k'.getD PaperType.hemp) :
    getProceduralTexture (getProceduralTexture s k).2 k'
      = ((getProceduralTexture s k).1, (getProceduralTexture s k).2) := by
  simp only [getProceduralTexture, ← h]
  by_cases hc : (alookup (k.getD PaperType.hemp) s.cache).isSome
  · simp [hc]
  · simp [hc, alookup_cons_self]

theorem pcount_append (k : PaperType) (l1 l2 : List PaperType) :
    pcount k (l1 ++ l2) = pcount k l1 + pcount k l2 := by
  induction l1 with
  | nil => simp [pcount]
  | cons a t ih => simp [pcount, ih, Nat.add_assoc]

theorem procInv_init : ProcInv initProcState := by
  intro k
  simp [initProcState, pcount, alookup]

theorem procInv_step (s : ProcState) (c : Option PaperType) (h : ProcInv s) :
    ProcInv (getProceduralTexture s c).2 := by
  intro k
  simp only [getProceduralTexture]
  by_cases hc : (alookup (c.getD PaperType.hemp) s.cache).isSome
  · simp only [if_pos hc]
    exact h k
  · simp only [if_neg hc]
    rw [pcount_append]
    by_cases hk : c.getD PaperType.hemp = k
    · subst hk
      simp [pcount, alookup_cons_self, h (c.getD PaperType.hemp), hc]
    · have hl : alookup k ((c.getD PaperType.hemp, s.nextId) :: s.cache)
          = alookup k s.cache := by
        simp [alookup, hk]
      simp [pcount, hk, hl, h k]

theorem procInv_run (calls : List (Option PaperType)) :
    ∀ s, ProcInv s → ProcInv (runProc s calls) := by
  induction calls with
  | nil => intro s h; exact h
  | cons c t ih => intro s h; exact ih _ (procInv_step s c h)

/-- C5: repeated getProceduralTexture calls with the same kind return the
identical cached buffer token with no state change (so the second call
runs no synthesis), the returned buffer is always present, and over any
sequence of calls from process start the synthesis runs at most once per
kind. -/
theorem procedural_texture_memoized (s : ProcState) (k : Option PaperType)
    (calls : List (Option PaperType)) (kind : PaperType) :
    getProceduralTexture (getProceduralTexture s k).2 k
      = ((getProceduralTexture s k).1, (getProceduralTexture s k).2)
    ∧ (getProceduralTexture s k).1.isSome = true
    ∧ pcount kind (runProc initProcState calls).gens ≤ 1 := by
  refine ⟨getProc_second_call s k k rfl, ?_, ?_⟩
  · simp only [getProceduralTexture]
    by_cases hc : (alookup (k.getD PaperType.hemp) s.cache).isSome
    · simp [hc]
    · simp [hc, alookup_cons_self]
  · rw [procInv_run calls initProcState procInv_init kind]
    by_cases hk : (alookup kind (runProc initProcState calls).cache).isSome
    · rw [if_pos hk]
    · rw [if_neg hk]
      exact Nat.zero_le 1

/-- C9: getProceduralTexture coerces an unset (null) kind to hemp: the
call with none is literally the call with hemp (same returned buffer,
same cache state), a subsequent call with hemp returns the identical
cached buffer token, and the result is a buffer rather than a failure. -/
theorem procedural_texture_null_is_hemp (s : ProcState) :
    getProceduralTexture s none = getProceduralTexture s (some PaperType.hemp)
    ∧ (getProceduralTexture (getProceduralTexture s none).2 (some PaperType.hemp)).1
        = (getProceduralTexture s none).1
    ∧ ((getProceduralTexture s none).1).isSome = true := by
  refine ⟨rfl, ?_, ?_⟩
  · rw [getProc_second_call s none (some PaperType.hemp) rfl]
  · simp only [getProceduralTexture]
    by_cases hc : (alookup PaperType.hemp s.cache).isSome
    · simp [hc]
    · simp [hc, alookup_cons_self]

/-! ## Color override versus texture map (C3) -/

/-- C3 counterexample: a customization with a paper color override, no
texture URL and hemp paper still gets the procedural texture map applied
on the flat-paper mesh and in the cone composition (the map is non-null),
so the color override does not suppress the texture in every rendering
path. -/
theorem color_override_counterexample :
    jsTruthyStr (some "#ff0000") = true
    ∧ flatPaperMap initProcState
        { paperType := some PaperType.hemp, paperColorHex := some "#ff0000",
          paperTextureUrl := none, customTexture := none } ≠ none
    ∧ conePaperMap initProcState
        { paperType := some PaperType.hemp, paperColorHex := some "#ff0000",
          paperTextureUrl := none, customTexture := none } none ≠ none := by
  refine ⟨rfl, ?_, ?_⟩
  · intro hc
    rw [show flatPaperMap initProcState
        { paperType := some PaperType.hemp, paperColorHex := some "#ff0000",
          paperTextureUrl := none, customTexture := none } = some 0 from rfl] at hc
    exact Option.noConfusion hc
  · intro hc
    rw [show conePaperMap initProcState
        { paperType := some PaperType.hemp, paperColorHex := some "#ff0000",
          paperTextureUrl := none, customTexture := none } none = some 0 from rfl] at hc
    exact Option.noConfusion hc

/-- C3 amended: when a paper color override is present, the texture map
is suppressed only on the rolled-paper mesh (whose map is
effectiveTextureOrNull); the flat-paper mesh and the cone composition
compute their texture maps without consulting the color override, so the
texture is applied there regardless of it. -/
theorem color_override_suppresses_rolled_only (procState : ProcState)
    (inp : PaperMaterialInputs) (baseSharedTexture : Option ℕ)
    (h : jsTruthyStr inp.paperColorHex = true) :
    rolledPaperMap procState inp = none
    ∧ flatPaperMap procState inp
        = flatPaperMap procState
            { paperType := inp.paperType, paperColorHex := none,
              paperTextureUrl := inp.paperTextureUrl,
              customTexture := inp.customTexture }
    ∧ conePaperMap procState inp baseSharedTexture
        = conePaperMap procState
            { paperType := inp.paperType, paperColorHex := none,
              paperTextureUrl := inp.paperTextureUrl,
              customTexture := inp.customTexture } baseSharedTexture := by
  refine ⟨?_, rfl, rfl⟩
  simp [rolledPaperMap, effectiveTextureOrNull, h]

/-- Witness for the amended C3 at the counterexample's customization. -/
theorem color_override_suppresses_rolled_only_witness :
    jsTruthyStr (some "#ff0000") = true
    ∧ (rolledPaperMap initProcState
        { paperType := some PaperType.hemp, paperColorHex := some "#ff0000",
          paperTextureUrl := none, customTexture := none } = none
    ∧ flatPaperMap initProcState
        { paperType := some PaperType.hemp, paperColorHex := some "#ff0000",
          paperTextureUrl := none, customTexture := none }
        = flatPaperMap initProcState
            { paperType := some PaperType.hemp, paperColorHex := none,
              paperTextureUrl := none, customTexture := none }
    ∧ conePaperMap initProcState
        { paperType := some PaperType.hemp, paperColorHex := some "#ff0000",
          paperTextureUrl := none, customTexture := none } none
        = conePaperMap initProcState
            { paperType := some PaperType.hemp, paperColorHex := none,
              paperTextureUrl := none, customTexture := none } none) :=
  ⟨rfl, color_override_suppresses_rolled_only initProcState
    { paperType := some PaperType.hemp, paperColorHex := some "#ff0000",
      paperTextureUrl := none, customTexture := none } none rfl⟩
